import Mathlib

/-!
Verification of the `RecursiveTraceAnalyzer` core of the Creativity-Without-Qualia
repository (`src/core/equations/recursive_trace_analyzer.py`).

The Python data model and the traversal algorithms are shallowly embedded below:
`TraceNode` / `RecursiveTrace` mirror the two dataclasses, and each traversal
method of `RecursiveTraceAnalyzer` becomes a Lean function of the same
structure.  Python list comprehensions (`[f(c) for c in children]`) and
accumulating `for` loops are embedded as mutually recursive helpers on the
child list, which is the standard totality plumbing for rose trees; each
helper is named next to the function it serves and is proved equal to the
corresponding `List.map`/fold form.

The source file in the repository is truncated: `_calculate_branching_factor`
stops mid-way (the inner accumulator's return for internal nodes and the final
division are missing), and `_detect_recursive_structures` /
`_analyze_transformations` are absent entirely.  Those missing pieces are
modelled from the specification and marked as such in their doc comments.
-/

/-- Value stored in a node's metadata dictionary: the source stores either an
integer (the `"depth"` entry) or an opaque creation timestamp
(`pd.Timestamp.now()`), which is modelled as the opaque constructor
`timeVal`. -/
inductive MetaVal where
  | intVal : ℤ → MetaVal
  | timeVal : MetaVal
deriving DecidableEq, Repr

/-- Content payload of a trace node: either the caller-supplied input payload
(`input_data`, of arbitrary type `α`) or one of the human-readable string
labels the source writes into synthetic nodes. -/
inductive Content (α : Type) where
  | payload : α → Content α
  | str : String → Content α
deriving DecidableEq, Repr

/-- Embedding of the `TraceNode` dataclass: `id`, `type`, `content`,
`metadata`, `children`.  The field `type` is named `ty` because `type` is a
keyword in Lean. -/
inductive TraceNode (α : Type) where
  | mk (id : String) (ty : String) (content : Content α)
       (metadata : List (String × MetaVal)) (children : List (TraceNode α))

namespace TraceNode

/-- Projection for the `id` field of a `TraceNode`. -/
def id {α : Type} : TraceNode α → String
  | mk i _ _ _ _ => i

/-- Projection for the `type` field of a `TraceNode`. -/
def ty {α : Type} : TraceNode α → String
  | mk _ t _ _ _ => t

/-- Projection for the `content` field of a `TraceNode`. -/
def content {α : Type} : TraceNode α → Content α
  | mk _ _ c _ _ => c

/-- Projection for the `metadata` field of a `TraceNode`. -/
def metadata {α : Type} : TraceNode α → List (String × MetaVal)
  | mk _ _ _ m _ => m

/-- Projection for the `children` field of a `TraceNode`. -/
def children {α : Type} : TraceNode α → List (TraceNode α)
  | mk _ _ _ _ cs => cs

end TraceNode

/-- Embedding of the `RecursiveTrace` dataclass: a root node, a recorded
maximum depth (a Python `int`, hence `ℤ`), and a string-valued metadata
mapping (the source stores `{"system_type": ...}` there). -/
structure RecursiveTrace (α : Type) where
  root : TraceNode α
  depth : ℤ
  metadata : List (String × String)

/-- Embedding of Python `max` applied to a list of nonnegative integers: on a
nonempty list of naturals, `foldl max 0` coincides with Python's `max`. -/
def listMax (l : List ℕ) : ℕ :=
  l.foldl max 0

mutual

/-- Embedding of `_calculate_trace_depth`: 0 for a node without children,
otherwise `1 + max(child_depths)` where `child_depths` is the list of the
children's depths (built by `depthList`). -/
def calcTraceDepth {α : Type} : TraceNode α → ℕ
  | .mk _ _ _ _ cs =>
    if cs.isEmpty then 0
    else 1 + listMax (depthList cs)

/-- Embedding of the list comprehension
`[self._calculate_trace_depth(child) for child in node.children]`. -/
def depthList {α : Type} : List (TraceNode α) → List ℕ
  | [] => []
  | c :: cs => calcTraceDepth c :: depthList cs

end

mutual

/-- Embedding of `_calculate_trace_breadth`: 1 for a node without children,
otherwise the maximum of the number of children at this level and the
children's breadths (Python's `max(child_breadths) if child_breadths else 0`
guard is kept verbatim). -/
def calcTraceBreadth {α : Type} : TraceNode α → ℕ
  | .mk _ _ _ _ cs =>
    if cs.isEmpty then 1
    else
      let thisLevelBreadth := cs.length
      let childBreadths := breadthList cs
      let maxChildBreadth := if childBreadths.isEmpty then 0 else listMax childBreadths
      max thisLevelBreadth maxChildBreadth

/-- Embedding of the list comprehension
`[self._calculate_trace_breadth(child) for child in node.children]`. -/
def breadthList {α : Type} : List (TraceNode α) → List ℕ
  | [] => []
  | c :: cs => calcTraceBreadth c :: breadthList cs

end

mutual

/-- Embedding of `_count_nodes`: 1 for a node without children, otherwise
`1 + sum(child_counts)`. -/
def countNodes {α : Type} : TraceNode α → ℕ
  | .mk _ _ _ _ cs =>
    if cs.isEmpty then 1
    else 1 + (countList cs).sum

/-- Embedding of the list comprehension
`[self._count_nodes(child) for child in node.children]`. -/
def countList {α : Type} : List (TraceNode α) → List ℕ
  | [] => []
  | c :: cs => countNodes c :: countList cs

end

mutual

/-- Embedding of the inner helper `count_children_and_nodes` of
`_calculate_branching_factor`: a node without children contributes `(0, 1)`;
an internal node starts from `(len(children), 1)` and the `for` loop adds each
child's pair (embedded by `ccnLoop`). -/
def countChildrenAndNodes {α : Type} : TraceNode α → ℕ × ℕ
  | .mk _ _ _ _ cs =>
    if cs.isEmpty then (0, 1)
    else ccnLoop cs (cs.length, 1)

/-- Embedding of the `for child in node.children` accumulation loop inside
`count_children_and_nodes`: it adds each child's
`(child_children, child_nodes)` pair to the running totals, in order. -/
def ccnLoop {α : Type} : List (TraceNode α) → ℕ × ℕ → ℕ × ℕ
  | [], acc => acc
  | c :: rest, acc =>
    let r := countChildrenAndNodes c
    ccnLoop rest (acc.1 + r.1, acc.2 + r.2)

end

mutual

/-- Reference definition (for stating claims): the number of parent-to-child
edges in the subtree rooted at a node, i.e. the sum over all nodes of the
length of their child list. -/
def edgeCount {α : Type} : TraceNode α → ℕ
  | .mk _ _ _ _ cs => cs.length + (edgeList cs).sum

/-- Child-list helper for `edgeCount`. -/
def edgeList {α : Type} : List (TraceNode α) → List ℕ
  | [] => []
  | c :: cs => edgeCount c :: edgeList cs

end

/-- Modelled from the spec: the tail of `_calculate_branching_factor` is
missing from the truncated source (the inner function's `return` for internal
nodes and the final division are cut off after the accumulation loop).  Per
the spec, the result is `total_children / total_nodes` over the whole tree,
with a divide-by-zero guard so that a single-node tree has branching factor
0.  The accumulator itself (`countChildrenAndNodes`) is embedded from the part
of the source that is present. -/
def branchingFactor {α : Type} (t : RecursiveTrace α) : ℚ :=
  let r := countChildrenAndNodes t.root
  if r.2 = 0 then 0 else (r.1 : ℚ) / (r.2 : ℚ)

/-- Embedding of `_calculate_recursion_depth_index`: reads the stored
`trace.depth`, recomputes `node_count` and `branching_factor`, returns 0 when
`node_count == 0 or branching_factor <= 1`, and otherwise
`(depth / node_count) * log(branching_factor)` (with `np.log` embedded as the
real natural logarithm). -/
noncomputable def recursionDepthIndex {α : Type} (t : RecursiveTrace α) : ℝ :=
  let depth := t.depth
  let node_count := countNodes t.root
  let bf := branchingFactor t
  if node_count = 0 ∨ bf ≤ 1 then 0
  else ((depth : ℝ) / (node_count : ℝ)) * Real.log ((bf : ℚ) : ℝ)

/-- Record shape of the hard-coded pattern records returned by the three
pattern detectors: the `"type"` key (named `ty`), the measurement key/value
pair (`"length"`, `"depth"` or `"factor"`), and the `"location"` key. -/
structure PatternRecord where
  ty : String
  measureKey : String
  measureVal : ℤ
  location : String
deriving DecidableEq, Repr

/-- Embedding of `_identify_sequential_chains`: the placeholder returns one
hard-coded record, ignoring its input. -/
def identifySequentialChains {α : Type} (_t : RecursiveTrace α) : List PatternRecord :=
  [{ ty := "chain", measureKey := "length", measureVal := 3, location := "root_step_0" }]

/-- Embedding of `_identify_recursive_loops`: the placeholder returns one
hard-coded record, ignoring its input. -/
def identifyRecursiveLoops {α : Type} (_t : RecursiveTrace α) : List PatternRecord :=
  [{ ty := "loop", measureKey := "depth", measureVal := 2, location := "root_step_1" }]

/-- Embedding of `_identify_branching_patterns`: the placeholder returns one
hard-coded record, ignoring its input. -/
def identifyBranchingPatterns {α : Type} (_t : RecursiveTrace α) : List PatternRecord :=
  [{ ty := "branch", measureKey := "factor", measureVal := 2, location := "root_step_2" }]

/-- Result of `_extract_patterns`: the dictionary with the three detector
outputs. -/
structure Patterns where
  sequential_chains : List PatternRecord
  recursive_loops : List PatternRecord
  branching_patterns : List PatternRecord
deriving DecidableEq, Repr

/-- Embedding of `_extract_patterns`. -/
def extractPatterns {α : Type} (t : RecursiveTrace α) : Patterns :=
  { sequential_chains := identifySequentialChains t
    recursive_loops := identifyRecursiveLoops t
    branching_patterns := identifyBranchingPatterns t }

/-- Embedding of the merged configuration dictionary built by `extract_trace`
(`max_depth`, `track_intermediate`, `include_metadata`, `trace_attribution`). -/
structure Config where
  maxDepth : ℤ
  trackIntermediate : Bool
  includeMetadata : Bool
  traceAttribution : Bool

/-- Embedding of `default_config` in `extract_trace`. -/
def defaultConfig : Config :=
  { maxDepth := 10, trackIntermediate := true, includeMetadata := true, traceAttribution := true }

/-- Caller-supplied partial configuration dictionary: any subset of the four
known keys may be present, mirroring a Python `dict` overlay. -/
structure ConfigPatch where
  maxDepth : Option ℤ
  trackIntermediate : Option Bool
  includeMetadata : Option Bool
  traceAttribution : Option Bool

/-- Embedding of `config = {**default_config, **config}` (falling back to
`default_config` when no configuration is supplied). -/
def mergeConfig : Option ConfigPatch → Config
  | none => defaultConfig
  | some p =>
    { maxDepth := p.maxDepth.getD defaultConfig.maxDepth
      trackIntermediate := p.trackIntermediate.getD defaultConfig.trackIntermediate
      includeMetadata := p.includeMetadata.getD defaultConfig.includeMetadata
      traceAttribution := p.traceAttribution.getD defaultConfig.traceAttribution }

/-- Fuel-indexed form of `_trace_recursive_processing`.  The source recursion
is bounded by `max_depth - current_depth`, which is the fuel supplied by
`traceRecursiveProcessing` below; the fuel-zero fallback `[]` is unreachable
under that instantiation (the `current_depth >= max_depth` guard fires first),
as `traceRecursiveProcessing_eq` proves.  The function returns the list of
children appended to `parent_node` (the source mutates
`parent_node.children`); each simulated step `i` in `0..2` yields a node with
id `f"{parent_node.id}_step_{i}"`, type `"transformation"`, content
`f"Processing step {i}"`, metadata `{"depth": current_depth + 1}`, and the
children produced by the recursive call when `current_depth < max_depth - 1`. -/
def trpAux {α : Type} (parentId : String) (currentDepth maxDepth : ℤ) :
    ℕ → List (TraceNode α)
  | 0 => []
  | fuel + 1 =>
    if currentDepth ≥ maxDepth then []
    else
      (List.range 3).map fun i =>
        .mk (parentId ++ "_step_" ++ toString i) "transformation"
          (.str ("Processing step " ++ toString i))
          [("depth", .intVal (currentDepth + 1))]
          (if currentDepth < maxDepth - 1 then
            trpAux (parentId ++ "_step_" ++ toString i) (currentDepth + 1) maxDepth fuel
          else [])

/-- Embedding of `_trace_recursive_processing`, as the list of children grown
under the given parent id.  See `trpAux` for the body and
`traceRecursiveProcessing_eq` for the proof that this satisfies exactly the
source's recursion equation. -/
def traceRecursiveProcessing {α : Type} (parentId : String) (currentDepth maxDepth : ℤ) :
    List (TraceNode α) :=
  if currentDepth ≥ maxDepth then []
  else trpAux parentId currentDepth maxDepth (maxDepth - currentDepth).toNat

/-- Embedding of `_generic_trace_extraction`: creates the root node
(id `"input_0"`, type `"input"`, content the input payload, metadata a
creation timestamp), grows the synthetic tree under it via
`_trace_recursive_processing` with `config['max_depth']`, recomputes the
actual depth with `_calculate_trace_depth`, and returns the trace with
metadata `{"system_type": ...}` (the system's class name, passed here as
`sysName`).  The source raises no error on this path: the function is total. -/
def genericTraceExtraction {α : Type} (sysName : String) (inputData : α)
    (config : Config) : RecursiveTrace α :=
  let root : TraceNode α :=
    .mk "input_0" "input" (.payload inputData) [("timestamp", .timeVal)]
      (traceRecursiveProcessing "input_0" 0 config.maxDepth)
  { root := root
    depth := (calcTraceDepth root : ℤ)
    metadata := [("system_type", sysName)] }

/-- Embedding of `_convert_system_trace`: a placeholder that discards the
system trace and returns a fixed single-node trace. -/
def convertSystemTrace {α σ : Type} (_systemTrace : σ) : RecursiveTrace α :=
  { root := .mk "root" "input" (.str "System-provided trace root") [] []
    depth := 0
    metadata := [] }

/-- Duck-typed cognitive system passed to `extract_trace`: it either exposes a
`process_with_trace` method (producing a system-specific trace of type `σ`) or
it does not, in which case the generic extraction runs.  `name` models
`type(system).__name__`. -/
structure CognitiveSystem (α σ : Type) where
  name : String
  processWithTrace : Option (α → Config → σ)

/-- Mutable state of a `RecursiveTraceAnalyzer` instance: `self.traces` (the
trace history list) and `self.patterns` (initialized to `{}` and never written
by the embedded methods). -/
structure AnalyzerState (α : Type) where
  traces : List (RecursiveTrace α)
  patterns : List (String × String)

/-- Embedding of `RecursiveTraceAnalyzer.__init__`. -/
def initAnalyzer {α : Type} : AnalyzerState α :=
  { traces := [], patterns := [] }

/-- Embedding of `extract_trace` as a state-passing function: merge the
configuration, dispatch on whether the system exposes `process_with_trace`,
append the produced trace to `self.traces`, and return it.  The source
contains no validation of `max_depth` and no `raise` statement: the function
is total. -/
def extractTrace {α σ : Type} (state : AnalyzerState α) (sys : CognitiveSystem α σ)
    (inputData : α) (config : Option ConfigPatch) :
    RecursiveTrace α × AnalyzerState α :=
  let cfg := mergeConfig config
  let trace :=
    match sys.processWithTrace with
    | some f => convertSystemTrace (f inputData cfg)
    | none => genericTraceExtraction sys.name inputData cfg
  (trace, { state with traces := state.traces ++ [trace] })

/-- Analysis result returned by `analyze_trace`.  Modelled from the spec: the
truncated source also stores `recursive_structures` and `transformations`
computed by `_detect_recursive_structures` and `_analyze_transformations`,
both missing from the source file; the spec's `AnalysisResult` carries exactly
the six fields below, which are the ones computed by code that is present. -/
structure AnalysisResult where
  depth : ℤ
  breadth : ℕ
  node_count : ℕ
  recursion_depth_index : ℝ
  branching_factor : ℚ
  patterns : Patterns

/-- Embedding of `analyze_trace` (restricted to the six spec fields, see
`AnalysisResult`): `depth` is read from the stored field, the other metrics
are recomputed by the traversal functions. -/
noncomputable def analyzeTrace {α : Type} (t : RecursiveTrace α) : AnalysisResult :=
  { depth := t.depth
    breadth := calcTraceBreadth t.root
    node_count := countNodes t.root
    recursion_depth_index := recursionDepthIndex t
    branching_factor := branchingFactor t
    patterns := extractPatterns t }

/-- Checker (for stating claims) that a child list is the child list of a
complete ternary synthetic tree of height `h` under a parent with the given
id: at height 0 there are no children; at height `h + 1` there are exactly 3
children, the `i`-th having id `{parent_id}_step_{i}`, type
`"transformation"`, and a complete ternary child list of height `h`. -/
def isCompleteTernaryFrom {α : Type} : ℕ → String → List (TraceNode α) → Bool
  | 0, _, cs => cs.isEmpty
  | h + 1, pid, cs =>
    match cs with
    | [c0, c1, c2] =>
      (c0.id == pid ++ "_step_0" && c0.ty == "transformation"
        && isCompleteTernaryFrom h c0.id c0.children) &&
      (c1.id == pid ++ "_step_1" && c1.ty == "transformation"
        && isCompleteTernaryFrom h c1.id c1.children) &&
      (c2.id == pid ++ "_step_2" && c2.ty == "transformation"
        && isCompleteTernaryFrom h c2.id c2.children)
    | _ => false

/-- Helper for the object-graph models below: the embedding of the list
comprehension `[f(c) for c in children]` when `f` itself may fail to return
(budget exhaustion); the whole comprehension returns only if every element
does. -/
def optionMapList (f : String → Option ℕ) : List String → Option (List ℕ)
  | [] => some []
  | x :: xs => do
    let y ← f x
    let ys ← optionMapList f xs
    pure (y :: ys)

/-- Model of running `_count_nodes` on a Python object graph in which child
references may point back at ancestors (the dataclass fields are ordinary
mutable references, so such graphs are constructible).  `g` maps a node id to
the ids of its children; `fuel` is a step budget bounding the recursion;
`none` means the budget was exhausted without the traversal returning.  The
source has no cycle detection and no `MalformedTrace` (or any other) error:
on a graph with a back-edge it recurses past every budget. -/
def countNodesFuel (g : String → List String) : ℕ → String → Option ℕ
  | 0, _ => none
  | fuel + 1, nid =>
    let cs := g nid
    if cs.isEmpty then some 1
    else do
      let counts ← optionMapList (countNodesFuel g fuel) cs
      pure (1 + counts.sum)

/-- Model of running `_calculate_trace_depth` on a Python object graph with a
step budget, in the same sense as `countNodesFuel`. -/
def traceDepthFuel (g : String → List String) : ℕ → String → Option ℕ
  | 0, _ => none
  | fuel + 1, nid =>
    let cs := g nid
    if cs.isEmpty then some 0
    else do
      let ds ← optionMapList (traceDepthFuel g fuel) cs
      pure (1 + listMax ds)

/-- Concrete two-node graph with a back-edge: the root `"n0"` has the single
child `"n1"`, and `"n1"`'s child list points back at its ancestor `"n0"`. -/
def backEdgeGraph : String → List String :=
  fun nid => if nid = "n0" then ["n1"] else if nid = "n1" then ["n0"] else []

/-- Single-node sample trace (used to instantiate hypotheses of the
degenerate-input theorems). -/
def singleNodeTrace : RecursiveTrace ℕ :=
  { root := .mk "solo" "input" (.payload 7) [] []
    depth := 0
    metadata := [] }

/-- Two-node sample node (one child) used to instantiate the internal-node
case of the metric recursion laws. -/
def sampleParent : TraceNode ℕ :=
  .mk "p" "input" (.payload 1) [] [.mk "c" "transformation" (.str "leaf") [] []]

/-- Synthetic trace built with `max_depth = 3` (the round-trip input of the
spec's testable properties). -/
def syntheticTraceD3 : RecursiveTrace ℕ :=
  genericTraceExtraction "TestSystem" 0 { maxDepth := 3, trackIntermediate := true, includeMetadata := true, traceAttribution := true }

/-- Trace produced by the generic extraction when the caller passes the
negative bound `max_depth = -1`. -/
def negDepthTrace : RecursiveTrace ℕ :=
  genericTraceExtraction "TestSystem" 0 { maxDepth := -1, trackIntermediate := true, includeMetadata := true, traceAttribution := true }

/-!  Helper lemmas: the child-list companions of the mutual traversal
functions agree with the corresponding `List.map` forms, and the accumulating
loop of `count_children_and_nodes` computes componentwise sums. -/

theorem depthList_eq_map {α : Type} (l : List (TraceNode α)) :
    depthList l = l.map calcTraceDepth := by
  induction l with
  | nil => rfl
  | cons c cs ih => simp [depthList, ih]

theorem breadthList_eq_map {α : Type} (l : List (TraceNode α)) :
    breadthList l = l.map calcTraceBreadth := by
  induction l with
  | nil => rfl
  | cons c cs ih => simp [breadthList, ih]

theorem countList_eq_map {α : Type} (l : List (TraceNode α)) :
    countList l = l.map countNodes := by
  induction l with
  | nil => rfl
  | cons c cs ih => simp [countList, ih]

theorem edgeList_eq_map {α : Type} (l : List (TraceNode α)) :
    edgeList l = l.map edgeCount := by
  induction l with
  | nil => rfl
  | cons c cs ih => simp [edgeList, ih]

theorem ccnLoop_eq {α : Type} (l : List (TraceNode α)) (acc : ℕ × ℕ) :
    ccnLoop l acc =
      (acc.1 + (l.map fun c => (countChildrenAndNodes c).1).sum,
       acc.2 + (l.map fun c => (countChildrenAndNodes c).2).sum) := by
  induction l generalizing acc with
  | nil => simp [ccnLoop]
  | cons c cs ih => simp [ccnLoop, ih]; omega

theorem sum_map_add_one {β : Type} (l : List β) (f : β → ℕ) :
    (l.map fun x => f x + 1).sum = (l.map f).sum + l.length := by
  induction l with
  | nil => rfl
  | cons c cs ih => simp [ih]; omega

/-- Structural induction principle for the nested inductive `TraceNode`:
to prove a property of every node it suffices to prove it for a node assuming
it for all of its children. -/
theorem traceNode_induction {α : Type} (motive : TraceNode α → Prop)
    (step : ∀ i t c m cs, (∀ x ∈ cs, motive x) → motive (.mk i t c m cs)) :
    ∀ n, motive n
  | .mk i t c m cs => step i t c m cs fun x hx => traceNode_induction motive step x
termination_by n => sizeOf n
decreasing_by
  have := List.sizeOf_lt_of_mem hx
  simp_wf
  omega

theorem countNodes_pos {α : Type} (n : TraceNode α) : 1 ≤ countNodes n := by
  obtain ⟨i, t, c, m, cs⟩ := n
  rw [countNodes]
  split <;> omega

/-- Structural law relating the edge count and the node count of a tree:
there is exactly one parent-to-child edge for every node except the root. -/
theorem edgeCount_add_one {α : Type} : ∀ n : TraceNode α, edgeCount n + 1 = countNodes n := by
  apply traceNode_induction
  intro i t c m cs ih
  rw [edgeCount, countNodes]
  by_cases hcs : cs.isEmpty
  · rw [if_pos hcs]
    rw [List.isEmpty_iff] at hcs
    subst hcs
    simp [edgeList]
  · rw [if_neg hcs]
    rw [countList_eq_map, edgeList_eq_map]
    have hmap : cs.map countNodes = cs.map fun x => edgeCount x + 1 :=
      List.map_congr_left fun x hx => (ih x hx).symm
    rw [hmap, sum_map_add_one]
    omega

/-- The accumulator of `_calculate_branching_factor` computes exactly the
pair (edge count, node count). -/
theorem ccn_eq {α : Type} :
    ∀ n : TraceNode α, countChildrenAndNodes n = (edgeCount n, countNodes n) := by
  apply traceNode_induction
  intro i t c m cs ih
  rw [countChildrenAndNodes, edgeCount, countNodes]
  by_cases hcs : cs.isEmpty
  · rw [if_pos hcs, if_pos hcs]
    rw [List.isEmpty_iff] at hcs
    subst hcs
    simp [edgeList]
  · rw [if_neg hcs, if_neg hcs, ccnLoop_eq]
    have h1 : (cs.map fun c => (countChildrenAndNodes c).1) = cs.map edgeCount :=
      List.map_congr_left fun x hx => by rw [ih x hx]
    have h2 : (cs.map fun c => (countChildrenAndNodes c).2) = cs.map countNodes :=
      List.map_congr_left fun x hx => by rw [ih x hx]
    rw [h1, h2, countList_eq_map, edgeList_eq_map]

/-- The branching factor is the number of parent-to-child edges divided by the
number of nodes (the divide-by-zero guard never fires, because every tree has
at least its root). -/
theorem branchingFactor_eq {α : Type} (t : RecursiveTrace α) :
    branchingFactor t = (edgeCount t.root : ℚ) / (countNodes t.root : ℚ) := by
  rw [branchingFactor, ccn_eq]
  have := countNodes_pos t.root
  simp only []
  rw [if_neg (by omega)]

/-- The fuel-indexed builder satisfies exactly the source's recursion
equation: `traceRecursiveProcessing` returns `[]` when
`current_depth >= max_depth` and otherwise the three step nodes, each carrying
the recursively built grandchildren when `current_depth < max_depth - 1`. -/
theorem traceRecursiveProcessing_eq {α : Type} (p : String) (d D : ℤ) :
    traceRecursiveProcessing (α := α) p d D =
      if d ≥ D then []
      else
        (List.range 3).map fun i =>
          .mk (p ++ "_step_" ++ toString i) "transformation"
            (.str ("Processing step " ++ toString i))
            [("depth", .intVal (d + 1))]
            (if d < D - 1 then
              traceRecursiveProcessing (p ++ "_step_" ++ toString i) (d + 1) D
            else []) := by
  by_cases h : d ≥ D
  · rw [traceRecursiveProcessing, if_pos h, if_pos h]
  · rw [traceRecursiveProcessing, if_neg h, if_neg h]
    obtain ⟨k, hk⟩ : ∃ k, (D - d).toNat = k + 1 := ⟨(D - d - 1).toNat, by omega⟩
    rw [hk, trpAux, if_neg h]
    apply List.map_congr_left
    intro i _
    by_cases h2 : d < D - 1
    · rw [if_pos h2, if_pos h2, traceRecursiveProcessing, if_neg (by omega)]
      have hk2 : (D - (d + 1)).toNat = k := by omega
      rw [hk2]
    · rw [if_neg h2, if_neg h2]

theorem trpAux_complete {α : Type} :
    ∀ (h : ℕ) (p : String) (d D : ℤ), (D - d).toNat = h →
      isCompleteTernaryFrom (α := α) h p (trpAux p d D h) = true := by
  intro h
  induction h with
  | zero =>
    intro p d D _
    rfl
  | succ k ih =>
    intro p d D hh
    have hd : d < D := by omega
    rw [trpAux, if_neg (by omega)]
    have hr : List.range 3 = [0, 1, 2] := rfl
    rw [hr]
    simp only [List.map_cons, List.map_nil]
    simp only [isCompleteTernaryFrom, TraceNode.id, TraceNode.ty, TraceNode.children,
      Bool.and_eq_true, beq_iff_eq]
    have hid0 : p ++ "_step_" ++ toString (0 : ℕ) = p ++ "_step_0" := by
      rw [String.append_assoc]
      exact congrArg (fun s => p ++ s) (by decide)
    have hid1 : p ++ "_step_" ++ toString (1 : ℕ) = p ++ "_step_1" := by
      rw [String.append_assoc]
      exact congrArg (fun s => p ++ s) (by decide)
    have hid2 : p ++ "_step_" ++ toString (2 : ℕ) = p ++ "_step_2" := by
      rw [String.append_assoc]
      exact congrArg (fun s => p ++ s) (by decide)
    refine ⟨⟨⟨⟨hid0, trivial⟩, ?_⟩, ⟨⟨hid1, trivial⟩, ?_⟩⟩, ⟨⟨hid2, trivial⟩, ?_⟩⟩
    all_goals
      by_cases h2 : d < D - 1
      · rw [if_pos h2]
        exact ih _ (d + 1) D (by omega)
      · rw [if_neg h2]
        have hk : k = 0 := by omega
        subst hk
        rfl

/-- The children grown under a parent by `_trace_recursive_processing`
starting at depth `d` with bound `D` form a complete ternary subtree of
height `(D - d).toNat`. -/
theorem traceRecursiveProcessing_complete {α : Type} (p : String) (d D : ℤ) :
    isCompleteTernaryFrom (α := α) ((D - d).toNat) p (traceRecursiveProcessing p d D) = true := by
  rw [traceRecursiveProcessing]
  by_cases h : d ≥ D
  · rw [if_pos h]
    have h0 : (D - d).toNat = 0 := by omega
    rw [h0]
    rfl
  · rw [if_neg h]
    exact trpAux_complete _ p d D rfl

/-- Metrics of a complete ternary tree: a node whose child list is complete
ternary of height `h` has depth exactly `h` and `(3 ^ (h + 1) - 1) / 2` nodes
(stated multiplicatively to avoid natural division). -/
theorem completeTernary_metrics {α : Type} :
    ∀ (h : ℕ) (pid : String) (n : TraceNode α),
      isCompleteTernaryFrom h pid n.children = true →
      calcTraceDepth n = h ∧ 2 * countNodes n = 3 ^ (h + 1) - 1 := by
  intro h
  induction h with
  | zero =>
    intro pid n hn
    obtain ⟨i, t, c, m, cs⟩ := n
    simp only [TraceNode.children, isCompleteTernaryFrom, List.isEmpty_iff] at hn
    subst hn
    constructor
    · rfl
    · rfl
  | succ k ih =>
    intro pid n hn
    obtain ⟨i, t, c, m, cs⟩ := n
    simp only [TraceNode.children] at hn
    rcases cs with _ | ⟨c0, _ | ⟨c1, _ | ⟨c2, _ | ⟨c3, rest⟩⟩⟩⟩
    · exact absurd hn (by simp [isCompleteTernaryFrom])
    · exact absurd hn (by simp [isCompleteTernaryFrom])
    · exact absurd hn (by simp [isCompleteTernaryFrom])
    · simp only [isCompleteTernaryFrom, Bool.and_eq_true, beq_iff_eq] at hn
      obtain ⟨⟨⟨⟨-, -⟩, h0⟩, ⟨-, -⟩, h1⟩, ⟨-, -⟩, h2⟩ := hn
      have H0 := ih c0.id c0 h0
      have H1 := ih c1.id c1 h1
      have H2 := ih c2.id c2 h2
      constructor
      · rw [calcTraceDepth, if_neg (by simp)]
        rw [depthList_eq_map]
        simp only [List.map_cons, List.map_nil, H0.1, H1.1, H2.1, listMax, List.foldl,
          Nat.zero_max, Nat.max_self]
        omega
      · rw [countNodes, if_neg (by simp)]
        rw [countList_eq_map]
        simp only [List.map_cons, List.map_nil, List.sum_cons, List.sum_nil]
        have hp : (3 : ℕ) ^ (k + 1 + 1) = 3 ^ (k + 1) * 3 := by ring
        have hone : 1 ≤ (3 : ℕ) ^ (k + 1) := Nat.one_le_pow _ _ (by norm_num)
        omega
    · exact absurd hn (by simp [isCompleteTernaryFrom])

/-- C1: for every non-negative integer `D` and every input payload `x`, the
synthetic trace builder (`extract_trace` falling back to
`_generic_trace_extraction` with `max_depth = D`) returns a trace that is a
complete ternary tree of depth exactly `D`: every node strictly above depth
`D` has exactly 3 children of type `"transformation"` with ids
`{parent_id}_step_{i}` for `i` in `0..2` and every leaf is at depth `D`
(captured by `isCompleteTernaryFrom`), the stored depth field equals `D`, the
total node count is `(3 ^ (D + 1) - 1) / 2`, and when `D = 0` the root has no
children. -/
theorem c1_synthetic_trace_complete_ternary {α : Type} (sysName : String) (x : α)
    (b1 b2 b3 : Bool) (D : ℤ) (hD : 0 ≤ D) :
    isCompleteTernaryFrom D.toNat
        (genericTraceExtraction sysName x ⟨D, b1, b2, b3⟩).root.id
        (genericTraceExtraction sysName x ⟨D, b1, b2, b3⟩).root.children = true ∧
    (genericTraceExtraction sysName x ⟨D, b1, b2, b3⟩).depth = D ∧
    countNodes (genericTraceExtraction sysName x ⟨D, b1, b2, b3⟩).root
      = (3 ^ (D.toNat + 1) - 1) / 2 ∧
    (D = 0 → (genericTraceExtraction sysName x ⟨D, b1, b2, b3⟩).root.children = []) := by
  have hctf : isCompleteTernaryFrom D.toNat "input_0"
      ((genericTraceExtraction sysName x ⟨D, b1, b2, b3⟩).root.children) = true := by
    have h := traceRecursiveProcessing_complete (α := α) "input_0" 0 D
    rw [sub_zero] at h
    exact h
  have hm := completeTernary_metrics D.toNat "input_0"
      (genericTraceExtraction sysName x ⟨D, b1, b2, b3⟩).root hctf
  refine ⟨hctf, ?_, ?_, ?_⟩
  · show ((calcTraceDepth (genericTraceExtraction sysName x ⟨D, b1, b2, b3⟩).root : ℕ) : ℤ) = D
    rw [hm.1]
    exact Int.toNat_of_nonneg hD
  · have h2 := hm.2
    have hone : 1 ≤ (3 : ℕ) ^ (D.toNat + 1) := Nat.one_le_pow _ _ (by norm_num)
    omega
  · intro h0
    subst h0
    rfl

/-- Witness for C1: at `D = 3` the hypothesis `0 ≤ D` holds and the built tree
has `(3 ^ 4 - 1) / 2 = 40` nodes. -/
theorem c1_witness :
    (0 : ℤ) ≤ 3 ∧
    countNodes (genericTraceExtraction "TestSystem" (0 : ℕ) ⟨3, true, true, true⟩).root
      = (3 ^ ((3 : ℤ).toNat + 1) - 1) / 2 :=
  ⟨by norm_num,
    (c1_synthetic_trace_complete_ternary "TestSystem" 0 true true true 3 (by norm_num)).2.2.1⟩

/-- C2: the three metric functions satisfy their reference recursive
definitions: `_calculate_trace_depth` returns 0 on a leaf and `1 + max` over
the children otherwise; `_calculate_trace_breadth` returns 1 on a leaf (the
deliberate base-case asymmetry) and `max(len(children), max child breadth)`
otherwise; `_count_nodes` returns 1 on a leaf and `1 + sum` over the children
otherwise, and is always at least 1. -/
theorem c2_metric_recursion_laws {α : Type} (n : TraceNode α) :
    (n.children = [] → calcTraceDepth n = 0 ∧ calcTraceBreadth n = 1 ∧ countNodes n = 1) ∧
    (n.children ≠ [] →
      calcTraceDepth n = 1 + listMax (n.children.map calcTraceDepth) ∧
      calcTraceBreadth n = max n.children.length (listMax (n.children.map calcTraceBreadth)) ∧
      countNodes n = 1 + (n.children.map countNodes).sum) ∧
    1 ≤ countNodes n := by
  obtain ⟨i, t, c, m, cs⟩ := n
  simp only [TraceNode.children]
  refine ⟨?_, ?_, countNodes_pos _⟩
  · intro h
    subst h
    exact ⟨rfl, rfl, rfl⟩
  · intro h
    have hne : ¬(cs.isEmpty = true) := by simpa [List.isEmpty_iff] using h
    refine ⟨?_, ?_, ?_⟩
    · rw [calcTraceDepth, if_neg hne, depthList_eq_map]
    · cases cs with
      | nil => exact absurd rfl h
      | cons a l =>
        rw [calcTraceBreadth, if_neg hne]
        simp only [breadthList_eq_map, List.map_cons, List.isEmpty_cons, Bool.false_eq_true,
          if_false]
    · rw [countNodes, if_neg hne, countList_eq_map]

/-- Witness for C2: the internal-node equations instantiated on a concrete
two-node tree, together with `countNodes ≥ 1` there. -/
theorem c2_witness :
    TraceNode.children sampleParent ≠ [] ∧
    calcTraceDepth sampleParent
      = 1 + listMax ((TraceNode.children sampleParent).map calcTraceDepth) ∧
    1 ≤ countNodes sampleParent :=
  ⟨List.cons_ne_nil _ _,
    ((c2_metric_recursion_laws sampleParent).2.1 (List.cons_ne_nil _ _)).1,
    (c2_metric_recursion_laws sampleParent).2.2⟩

/-- C3: for every trace, `_calculate_branching_factor` (its accumulator
`countChildrenAndNodes` computing bottom-up `(total_children, total_nodes)`
pairs with a leaf contributing `(0, 1)`) returns
`total_children / total_nodes`, which equals the number of parent-to-child
edges divided by the total node count; the node-count component is never 0
(so there is no division by zero), and a single-node tree has branching
factor exactly 0. -/
theorem c3_branching_factor_edges_over_nodes {α : Type} (t : RecursiveTrace α) :
    branchingFactor t = (edgeCount t.root : ℚ) / (countNodes t.root : ℚ) ∧
    (countChildrenAndNodes t.root).2 ≠ 0 ∧
    (t.root.children = [] → branchingFactor t = 0) := by
  obtain ⟨root, dep, meta⟩ := t
  obtain ⟨i, ty, c, m, cs⟩ := root
  refine ⟨branchingFactor_eq _, ?_, ?_⟩
  · rw [ccn_eq]
    show countNodes (TraceNode.mk i ty c m cs) ≠ 0
    have := countNodes_pos (TraceNode.mk i ty c m cs)
    omega
  · intro h
    simp only [TraceNode.children] at h
    subst h
    rw [branchingFactor_eq]
    norm_num [edgeCount, edgeList]

/-- Witness for C3: the single-node trace has branching factor 0. -/
theorem c3_witness :
    singleNodeTrace.root.children = [] ∧ branchingFactor singleNodeTrace = 0 :=
  ⟨rfl, (c3_branching_factor_edges_over_nodes singleNodeTrace).2.2 rfl⟩

/-- Counterexample to C4: the branching factor of the synthetic trace built
with `D = 3` is not 3 (it is `39 / 40`: the accumulated
`total_children / total_nodes` is edges over nodes, which is below 1 for
every tree). -/
theorem c4_counterexample :
    (analyzeTrace syntheticTraceD3).branching_factor ≠ 3 := by
  show branchingFactor syntheticTraceD3 ≠ 3
  have h : countChildrenAndNodes syntheticTraceD3.root = (39, 40) := by decide
  simp only [branchingFactor, h]
  norm_num

/-- C4 as amended: for every `D ≥ 1`, analyzing the synthetic trace built
with `max_depth = D` yields stored depth `D`, node count
`(3 ^ (D + 1) - 1) / 2`, and branching factor exactly
`(3 ^ (D + 1) - 3) / (3 ^ (D + 1) - 1)` (not 3); at `D = 3` this gives
depth 3, node count 40 and branching factor `39 / 40 = 0.975`. -/
theorem c4_amended_branching_factor {α : Type} (sysName : String) (x : α)
    (b1 b2 b3 : Bool) (D : ℤ) (hD : 1 ≤ D) :
    (analyzeTrace (genericTraceExtraction sysName x ⟨D, b1, b2, b3⟩)).depth = D ∧
    (analyzeTrace (genericTraceExtraction sysName x ⟨D, b1, b2, b3⟩)).node_count
      = (3 ^ (D.toNat + 1) - 1) / 2 ∧
    (analyzeTrace (genericTraceExtraction sysName x ⟨D, b1, b2, b3⟩)).branching_factor
      = ((3 : ℚ) ^ (D.toNat + 1) - 3) / ((3 : ℚ) ^ (D.toNat + 1) - 1) := by
  have hctf : isCompleteTernaryFrom D.toNat "input_0"
      ((genericTraceExtraction sysName x ⟨D, b1, b2, b3⟩).root.children) = true := by
    have h := traceRecursiveProcessing_complete (α := α) "input_0" 0 D
    rw [sub_zero] at h
    exact h
  have hm := completeTernary_metrics D.toNat "input_0"
      (genericTraceExtraction sysName x ⟨D, b1, b2, b3⟩).root hctf
  have hone : 1 ≤ (3 : ℕ) ^ (D.toNat + 1) := Nat.one_le_pow _ _ (by norm_num)
  refine ⟨?_, ?_, ?_⟩
  · show ((calcTraceDepth (genericTraceExtraction sysName x ⟨D, b1, b2, b3⟩).root : ℕ) : ℤ) = D
    rw [hm.1]
    exact Int.toNat_of_nonneg (by omega)
  · show countNodes (genericTraceExtraction sysName x ⟨D, b1, b2, b3⟩).root
      = (3 ^ (D.toNat + 1) - 1) / 2
    have h2 := hm.2
    omega
  · show branchingFactor (genericTraceExtraction sysName x ⟨D, b1, b2, b3⟩)
      = ((3 : ℚ) ^ (D.toNat + 1) - 3) / ((3 : ℚ) ^ (D.toNat + 1) - 1)
    have hNnat : 3 ^ (D.toNat + 1)
        = 2 * countNodes (genericTraceExtraction sysName x ⟨D, b1, b2, b3⟩).root + 1 := by
      have h2 := hm.2
      omega
    have hpow : ((3 : ℚ) ^ (D.toNat + 1))
        = 2 * (countNodes (genericTraceExtraction sysName x ⟨D, b1, b2, b3⟩).root : ℚ) + 1 := by
      calc ((3 : ℚ) ^ (D.toNat + 1))
          = ((3 ^ (D.toNat + 1) : ℕ) : ℚ) := by push_cast; ring
        _ = ((2 * countNodes (genericTraceExtraction sysName x ⟨D, b1, b2, b3⟩).root + 1 : ℕ) : ℚ) := by
            rw [hNnat]
        _ = 2 * (countNodes (genericTraceExtraction sysName x ⟨D, b1, b2, b3⟩).root : ℚ) + 1 := by
            push_cast; ring
    have hE : (edgeCount (genericTraceExtraction sysName x ⟨D, b1, b2, b3⟩).root : ℚ)
        = (countNodes (genericTraceExtraction sysName x ⟨D, b1, b2, b3⟩).root : ℚ) - 1 := by
      have h := edgeCount_add_one (genericTraceExtraction sysName x ⟨D, b1, b2, b3⟩).root
      have h' : (edgeCount (genericTraceExtraction sysName x ⟨D, b1, b2, b3⟩).root : ℚ) + 1
          = (countNodes (genericTraceExtraction sysName x ⟨D, b1, b2, b3⟩).root : ℚ) := by
        exact_mod_cast h
      linarith
    rw [branchingFactor_eq, hpow, hE]
    rw [show (2 * (countNodes (genericTraceExtraction sysName x ⟨D, b1, b2, b3⟩).root : ℚ) + 1 - 3)
        = 2 * ((countNodes (genericTraceExtraction sysName x ⟨D, b1, b2, b3⟩).root : ℚ) - 1) from by ring]
    rw [show (2 * (countNodes (genericTraceExtraction sysName x ⟨D, b1, b2, b3⟩).root : ℚ) + 1 - 1)
        = 2 * (countNodes (genericTraceExtraction sysName x ⟨D, b1, b2, b3⟩).root : ℚ) from by ring]
    rw [mul_div_mul_left _ _ (two_ne_zero)]

/-- Witness for C4's amended theorem at `D = 3`: depth 3, node count 40,
branching factor `39 / 40`. -/
theorem c4_witness :
    (1 : ℤ) ≤ 3 ∧
    (analyzeTrace (genericTraceExtraction "TestSystem" (0 : ℕ) ⟨3, true, true, true⟩)).depth = 3 ∧
    (analyzeTrace (genericTraceExtraction "TestSystem" (0 : ℕ) ⟨3, true, true, true⟩)).node_count = 40 ∧
    (analyzeTrace (genericTraceExtraction "TestSystem" (0 : ℕ) ⟨3, true, true, true⟩)).branching_factor
      = 39 / 40 := by
  have h := c4_amended_branching_factor "TestSystem" (0 : ℕ) true true true 3 (by norm_num)
  refine ⟨by norm_num, h.1, ?_, ?_⟩
  · rw [h.2.1]
    decide
  · rw [h.2.2]
    norm_num [show Int.toNat 3 = 3 from rfl]

/-- C5: for every trace, `_calculate_recursion_depth_index` returns exactly 0
when the node count is 0 or the branching factor is at most 1, and otherwise
returns `(stored depth / node_count) * ln(branching_factor)`. -/
theorem c5_recursion_depth_index_cases {α : Type} (t : RecursiveTrace α) :
    (countNodes t.root = 0 ∨ branchingFactor t ≤ 1 → recursionDepthIndex t = 0) ∧
    (countNodes t.root ≠ 0 → 1 < branchingFactor t →
      recursionDepthIndex t
        = ((t.depth : ℝ) / (countNodes t.root : ℝ))
            * Real.log ((branchingFactor t : ℚ) : ℝ)) := by
  constructor
  · intro h
    simp only [recursionDepthIndex]
    rw [if_pos h]
  · intro h1 h2
    simp only [recursionDepthIndex]
    rw [if_neg (by push_neg; exact ⟨h1, h2⟩)]

/-- Witness for C5: the single-node trace has branching factor `0 ≤ 1`, so
its recursion depth index is 0. -/
theorem c5_witness :
    branchingFactor singleNodeTrace ≤ 1 ∧ recursionDepthIndex singleNodeTrace = 0 := by
  have h : countChildrenAndNodes singleNodeTrace.root = (0, 1) := by decide
  have hle : branchingFactor singleNodeTrace ≤ 1 := by
    simp only [branchingFactor, h]
    norm_num
  exact ⟨hle, (c5_recursion_depth_index_cases singleNodeTrace).1 (Or.inr hle)⟩

/-- Counterexample to C6: at the negative bound `max_depth = -1` the builder
does not reject anything — the source contains no validation and no `raise` —
it returns a normal trace whose root has no children and whose depth is 0. -/
theorem c6_counterexample :
    negDepthTrace.root.children = [] ∧ negDepthTrace.depth = 0 :=
  ⟨rfl, rfl⟩

/-- C6 as amended: for every negative `max_depth`, the builder returns
normally (no `InvalidDepth` rejection exists at the builder boundary in the
source): the guard `current_depth >= max_depth` fires immediately, so the
returned trace has a childless root and stored depth 0. -/
theorem c6_amended_no_rejection {α : Type} (sysName : String) (x : α) (b1 b2 b3 : Bool)
    (D : ℤ) (hD : D < 0) :
    (genericTraceExtraction sysName x ⟨D, b1, b2, b3⟩).root.children = [] ∧
    (genericTraceExtraction sysName x ⟨D, b1, b2, b3⟩).depth = 0 := by
  have h0 : traceRecursiveProcessing (α := α) "input_0" 0 D = [] := by
    rw [traceRecursiveProcessing, if_pos (by omega)]
  constructor
  · exact h0
  · show ((calcTraceDepth (TraceNode.mk "input_0" "input" (Content.payload x)
      [("timestamp", MetaVal.timeVal)] (traceRecursiveProcessing "input_0" 0 D)) : ℕ) : ℤ) = 0
    rw [h0]
    rfl

/-- Witness for C6's amended theorem at `max_depth = -5`. -/
theorem c6_witness :
    (-5 : ℤ) < 0 ∧
    (genericTraceExtraction "TestSystem" (0 : ℕ) ⟨-5, true, true, true⟩).root.children = [] :=
  ⟨by norm_num,
    (c6_amended_no_rejection "TestSystem" 0 true true true (-5) (by norm_num)).1⟩

/-- Back-edge graph lemma: on the two-node graph whose child points back at
its ancestor, the node-counting traversal exhausts every step budget without
returning. -/
theorem backEdgeGraph_count_none :
    ∀ fuel : ℕ, countNodesFuel backEdgeGraph fuel "n0" = none ∧
      countNodesFuel backEdgeGraph fuel "n1" = none := by
  intro fuel
  induction fuel with
  | zero => exact ⟨rfl, rfl⟩
  | succ k ih =>
    constructor
    · rw [countNodesFuel]
      simp [backEdgeGraph, optionMapList, ih.2]
    · rw [countNodesFuel]
      simp [backEdgeGraph, optionMapList, ih.1]

/-- Back-edge graph lemma: the depth traversal likewise exhausts every step
budget without returning. -/
theorem backEdgeGraph_depth_none :
    ∀ fuel : ℕ, traceDepthFuel backEdgeGraph fuel "n0" = none ∧
      traceDepthFuel backEdgeGraph fuel "n1" = none := by
  intro fuel
  induction fuel with
  | zero => exact ⟨rfl, rfl⟩
  | succ k ih =>
    constructor
    · rw [traceDepthFuel]
      simp [backEdgeGraph, optionMapList, ih.2]
    · rw [traceDepthFuel]
      simp [backEdgeGraph, optionMapList, ih.1]

/-- Counterexample to C7: on the concrete graph with a back-edge (`"n1"`'s
child list points at its ancestor `"n0"`), the traversals do not raise any
`MalformedTrace` error in bounded time — no such error exists in the source —
they are still running after 1000 steps (`none` = budget exhausted with no
result). -/
theorem c7_counterexample :
    backEdgeGraph "n1" = ["n0"] ∧
    countNodesFuel backEdgeGraph 1000 "n0" = none ∧
    traceDepthFuel backEdgeGraph 1000 "n0" = none :=
  ⟨rfl, (backEdgeGraph_count_none 1000).1, (backEdgeGraph_depth_none 1000).1⟩

/-- C7 as amended: the traversal routines contain no back-edge detection and
no `MalformedTrace` error: on a node graph with a back-edge, `_count_nodes`
and `_calculate_trace_depth` recurse past every step budget, returning
neither a result nor an error (so in particular no partial results). -/
theorem c7_amended_unbounded_recursion (fuel : ℕ) :
    countNodesFuel backEdgeGraph fuel "n0" = none ∧
    traceDepthFuel backEdgeGraph fuel "n0" = none :=
  ⟨(backEdgeGraph_count_none fuel).1, (backEdgeGraph_depth_none fuel).1⟩

/-- C8: each of the three pattern detectors is a constant function returning
the same single hard-coded record (`{kind, measurement, location}`) regardless
of its input trace. -/
theorem c8_pattern_detectors_constant {α : Type} (t₁ t₂ : RecursiveTrace α) :
    identifySequentialChains t₁
      = [{ ty := "chain", measureKey := "length", measureVal := 3, location := "root_step_0" }] ∧
    identifyRecursiveLoops t₁
      = [{ ty := "loop", measureKey := "depth", measureVal := 2, location := "root_step_1" }] ∧
    identifyBranchingPatterns t₁
      = [{ ty := "branch", measureKey := "factor", measureVal := 2, location := "root_step_2" }] ∧
    identifySequentialChains t₁ = identifySequentialChains t₂ ∧
    identifyRecursiveLoops t₁ = identifyRecursiveLoops t₂ ∧
    identifyBranchingPatterns t₁ = identifyBranchingPatterns t₂ :=
  ⟨rfl, rfl, rfl, rfl, rfl, rfl⟩

/-- C9: every call to `extract_trace` appends exactly one element — the trace
it returns — to the end of the analyzer's trace history `self.traces`, and
leaves all previously stored traces and `self.patterns` unchanged. -/
theorem c9_extract_trace_appends_exactly_one {α σ : Type} (st : AnalyzerState α)
    (sys : CognitiveSystem α σ) (x : α) (config : Option ConfigPatch) :
    (extractTrace st sys x config).2.traces
      = st.traces ++ [(extractTrace st sys x config).1] ∧
    (extractTrace st sys x config).2.patterns = st.patterns :=
  ⟨rfl, rfl⟩

/-- C10: for every `max_depth` that is zero or negative,
`_generic_trace_extraction` returns normally (there is no error path in the
source): the guard `current_depth >= max_depth` fires immediately at depth 0,
so the returned trace is a single root node with no children and a stored
depth field of exactly 0. -/
theorem c10_nonpositive_depth_single_root {α : Type} (sysName : String) (x : α)
    (b1 b2 b3 : Bool) (D : ℤ) (hD : D ≤ 0) :
    (genericTraceExtraction sysName x ⟨D, b1, b2, b3⟩).root.children = [] ∧
    countNodes (genericTraceExtraction sysName x ⟨D, b1, b2, b3⟩).root = 1 ∧
    (genericTraceExtraction sysName x ⟨D, b1, b2, b3⟩).depth = 0 := by
  have h0 : traceRecursiveProcessing (α := α) "input_0" 0 D = [] := by
    rw [traceRecursiveProcessing, if_pos (by omega)]
  refine ⟨h0, ?_, ?_⟩
  · show countNodes (TraceNode.mk "input_0" "input" (Content.payload x)
      [("timestamp", MetaVal.timeVal)] (traceRecursiveProcessing "input_0" 0 D)) = 1
    rw [h0]
    rfl
  · show ((calcTraceDepth (TraceNode.mk "input_0" "input" (Content.payload x)
      [("timestamp", MetaVal.timeVal)] (traceRecursiveProcessing "input_0" 0 D)) : ℕ) : ℤ) = 0
    rw [h0]
    rfl

/-- Witness for C10 at `max_depth = 0`: the returned trace is a single root
node. -/
theorem c10_witness :
    (0 : ℤ) ≤ 0 ∧
    countNodes (genericTraceExtraction "TestSystem" (0 : ℕ) ⟨0, true, true, true⟩).root = 1 :=
  ⟨le_refl 0,
    (c10_nonpositive_depth_single_root "TestSystem" 0 true true true 0 (le_refl 0)).2.1⟩
